import Mathlib

/-!
Shallow embedding of the route resolution engine in src/detour.ts
(react-detour).  View components are opaque values, React elements are a
small inductive tree, JavaScript promises are modelled by their eventual
result as an Except value, and the asynchronous interleaving of
computeOutlet calls and loader completions is modelled by an explicit
step function over the resolver state.
-/

/-- Opaque reference to a view component (ComponentType in the source). -/
abbrev Component := Nat

/-- A JavaScript error value; the source only reads its stack. -/
structure JSError where
  stack : String
deriving DecidableEq, Repr

/-- The React element trees the engine builds: a PathProvider wrapper
(function providePath, line 128) and a created element of a loaded
component with its params props (createElement at line 212). -/
inductive Element where
  | pathProvider (path : String) (child : Element)
  | elem (component : Component) (params : List (String × String))
deriving DecidableEq, Repr

/-- Model of the compiled path-to-regexp object used by the source
(pathToRegexp.PathRegExp).  The library is external to the repository;
we model its documented interface: test, exec returning the matched
string and the ordered capture values, and keys holding the parameter
names in pattern order.  The invariant exec_anchored records that the
compiled regular expressions are start-anchored, so the matched string
is a prefix of the tested path. -/
structure PathRegExp where
  test : String → Bool
  exec : String → Option (String × List String)
  keys : List String
  exec_anchored : ∀ path m caps, exec path = some (m, caps) → ∃ rest, path = m ++ rest

/-- A thunk of a user route handler, modelled by the eventual result of
the promise it produces: a resolved component or a rejection error. -/
abbrev Thunk' := Except JSError Component

/-- The component field of a UserRouteHandler (detour.ts line 41): either
a single thunk or a map of outlet name to thunk (association list). -/
inductive UserComponent where
  | single (thunk : Thunk')
  | map (thunks : List (String × Thunk'))

/-- The user facing route handler type (detour.ts line 38). end is an
optional boolean, modelled by Option Bool (undefined = none). -/
structure UserRouteHandler where
  path : String
  endOpt : Option Bool
  component : UserComponent

/-- The internal route handler (detour.ts line 53).  getComponents is the
eventual result of the promise returned by the getComponents closure. -/
structure RouteHandler where
  pathRegExp : PathRegExp
  getComponents : Except JSError (List (String × Component))

/-- The end option computed at detour.ts line 69: when the user gave a
boolean it is used as given, otherwise the option is the comparison of
the route path with the root path. -/
def routeEnd (path : String) (endOpt : Option Bool) : Bool :=
  match endOpt with
  | some b => b
  | none => path == "/"

/-- Promise.all over the thunks of a component map (detour.ts lines
80-88): resolves to the list of all components, keys preserved in order,
or rejects as soon as some thunk rejects. -/
def sequenceComponentThunks :
    List (String × Thunk') → Except JSError (List (String × Component))
  | [] => .ok []
  | (key, thunk) :: rest => do
    let c ← thunk
    let cs ← sequenceComponentThunks rest
    pure ((key, c) :: cs)

/-- Eventual result of the getComponents closure built at detour.ts line
71: a single thunk is wrapped into a one-entry default map (line 74), a
thunk map fans out over all keys with Promise.all (lines 80-88). -/
def getComponentsResult : UserComponent → Except JSError (List (String × Component))
  | .single thunk => thunk.map fun c => [("default", c)]
  | .map thunks => sequenceComponentThunks thunks

/-- toRouteHandler (detour.ts line 61).  The external pathToRegexp
compiler is a parameter: it receives the path and the computed end
option. -/
def toRouteHandler (ptr : String → Bool → PathRegExp) (u : UserRouteHandler) : RouteHandler :=
  { pathRegExp := ptr u.path (routeEnd u.path u.endOpt)
  , getComponents := getComponentsResult u.component }

/-- The mutable state of one RouteOutlet instance: the zone counter
(currentZoneID, line 163) and the outlets map held in component state
(line 161). -/
structure ResolverState where
  currentZoneID : Nat
  outlets : List (String × Element)
deriving DecidableEq, Repr

/-- One in-flight resolution: the zone id allocated when computeOutlet
was entered, the matched handler, and the path captured at call time
(closed over by the then and catch callbacks in the source). -/
structure Pending where
  zoneID : Nat
  handler : RouteHandler
  path : String

/-- routeHandlers.find at detour.ts line 188: first handler whose
compiled pattern tests true on the path. -/
def selectRouteHandler (handlers : List RouteHandler) (path : String) : Option RouteHandler :=
  handlers.find? fun h => h.pathRegExp.test path

/-- The synchronous part of computeOutlet (detour.ts lines 178-192):
increment the zone counter, find the first matching handler; with no
match, set the outlets state to empty and return with nothing in flight;
with a match, leave the outlets state alone and return the pending
resolution carrying the new zone id and the captured path. -/
def computeOutletSync (handlers : List RouteHandler) (s : ResolverState) (path : String) :
    ResolverState × Option Pending :=
  let zoneID := s.currentZoneID + 1
  match selectRouteHandler handlers path with
  | none => ({ currentZoneID := zoneID, outlets := [] }, none)
  | some h => ({ s with currentZoneID := zoneID }, some { zoneID := zoneID, handler := h, path := path })

/-- The then callback of computeOutlet (detour.ts lines 193-216): noop
when the zone is no longer current; otherwise re-run exec on the
captured path, drop the matched string from the front of the path, zip
the key names with the capture values into params, and publish one
outlet per component key, each wrapped in providePath with the path
rest.  The exec none branch is unreachable in the source (the cast at
line 198 relies on test having succeeded) and leaves the state
unchanged. -/
def completeSuccess (s : ResolverState) (p : Pending) (components : List (String × Component)) :
    ResolverState :=
  if p.zoneID ≠ s.currentZoneID then s
  else
    match p.handler.pathRegExp.exec p.path with
    | none => s
    | some (m, caps) =>
      let pathRest := p.path.drop m.length
      let params := p.handler.pathRegExp.keys.zip caps
      let outlets := components.map fun kc =>
        (kc.1, Element.pathProvider pathRest (Element.elem kc.2 params))
      { s with outlets := outlets }

/-- The catch callback of computeOutlet (detour.ts lines 217-223):
report the error stack (console.error, line 219) before any zone check;
then, only when the zone is still current, set the outlets state to
empty.  The second output collects what was reported to the diagnostic
sink. -/
def completeFailure (s : ResolverState) (p : Pending) (e : JSError) :
    ResolverState × List String :=
  let reported := [e.stack]
  if p.zoneID ≠ s.currentZoneID then (s, reported)
  else ({ s with outlets := [] }, reported)

/-- Completion of an in-flight resolution once its loader promise
settles: the then callback on a fulfilled promise, the catch callback on
a rejected one. -/
def completeResolution (s : ResolverState) (p : Pending) : ResolverState × List String :=
  match p.handler.getComponents with
  | .ok comps => (completeSuccess s p comps, [])
  | .error e => completeFailure s p e

/-- One event on the single-threaded event loop that touches a resolver
instance: a new computeOutlet call, or the settling of some in-flight
resolution. -/
inductive Step where
  | resolve (path : String)
  | complete (p : Pending)

/-- Effect of one event on the resolver state. -/
def stepFn (handlers : List RouteHandler) (s : ResolverState) : Step → ResolverState
  | .resolve path => (computeOutletSync handlers s path).1
  | .complete p => (completeResolution s p).1

/-- Effect of a sequence of events on the resolver state. -/
def runSteps (handlers : List RouteHandler) (s : ResolverState) (steps : List Step) : ResolverState :=
  steps.foldl (stepFn handlers) s

/-- The element produced by RouteOutlet.render (detour.ts lines
226-237): createElement of the composed component, with the outlets map
merged into the props and the default outlet passed as children. -/
structure RenderedElement where
  component : Component
  props_outlets : List (String × Element)
  children : Option Element
deriving DecidableEq, Repr

/-- RouteOutlet.render (detour.ts lines 226-237). -/
def renderRouteOutlet (component : Component) (s : ResolverState) : RenderedElement :=
  { component := component
  , props_outlets := s.outlets
  , children := s.outlets.lookup "default" }

/-- Sample matcher used in concrete evaluations: a start-anchored match
of the single path /a/42, consuming the prefix /a with one capture 42
for the parameter named id. -/
def rxA : PathRegExp where
  test := fun path => path == "/a/42"
  exec := fun path => if path = "/a/42" then some ("/a", ["42"]) else none
  keys := ["id"]
  exec_anchored := by
    intro path m caps h
    replace h : (if path = "/a/42" then (some ("/a", ["42"]) : Option (String × List String))
        else none) = some (m, caps) := h
    by_cases hp : path = "/a/42"
    · rw [if_pos hp] at h
      simp only [Option.some.injEq, Prod.mk.injEq] at h
      exact ⟨"/42", by rw [hp, ← h.1]; decide⟩
    · rw [if_neg hp] at h
      exact absurd h (by simp)

/-- Sample matcher that never matches. -/
def rxNever : PathRegExp where
  test := fun _ => false
  exec := fun _ => none
  keys := []
  exec_anchored := by intro path m caps h; exact absurd h (by simp)

/-- Sample handler resolving one default component. -/
def sampleHandlerA : RouteHandler :=
  { pathRegExp := rxA, getComponents := .ok [("default", 7)] }

/-- Sample handler that never matches any path. -/
def sampleHandlerNever : RouteHandler :=
  { pathRegExp := rxNever, getComponents := .ok [("default", 8)] }

/-- Sample handler whose loader rejects. -/
def sampleHandlerFail : RouteHandler :=
  { pathRegExp := rxA, getComponents := .error { stack := "boom at loader" } }

/-! ### Helper lemmas -/

theorem find?_eq_filter_head? (p : α → Bool) (l : List α) :
    l.find? p = (l.filter p).head? := by
  induction l with
  | nil => rfl
  | cons a t ih =>
    cases h : p a
    · rw [List.find?_cons_of_neg _ (by simp [h]), List.filter_cons_of_neg (by simp [h]), ih]
    · rw [List.find?_cons_of_pos _ h, List.filter_cons_of_pos h, List.head?_cons]

theorem string_drop_left (m rest : String) : (m ++ rest).drop m.length = rest := by
  rw [String.drop_eq, String.data_append]
  have h3 : m.length = m.data.length := rfl
  rw [h3, List.drop_left]

theorem currentZoneID_computeOutletSync (handlers : List RouteHandler) (s : ResolverState)
    (path : String) :
    ((computeOutletSync handlers s path).1).currentZoneID = s.currentZoneID + 1 := by
  cases h : selectRouteHandler handlers path <;> simp [computeOutletSync, h]

theorem currentZoneID_completeResolution (s : ResolverState) (p : Pending) :
    ((completeResolution s p).1).currentZoneID = s.currentZoneID := by
  unfold completeResolution
  cases hg : p.handler.getComponents with
  | error e =>
    unfold completeFailure
    by_cases hz : p.zoneID ≠ s.currentZoneID <;> simp [hz]
  | ok comps =>
    unfold completeSuccess
    by_cases hz : p.zoneID ≠ s.currentZoneID
    · simp [hz]
    · simp only [hz, if_false]
      cases he : p.handler.pathRegExp.exec p.path with
      | none => rfl
      | some mc => cases mc with | mk m caps => simp

theorem completeResolution_stale (s : ResolverState) (p : Pending)
    (h : p.zoneID ≠ s.currentZoneID) : (completeResolution s p).1 = s := by
  unfold completeResolution completeSuccess completeFailure
  cases p.handler.getComponents <;> simp [h]

theorem currentZoneID_le_stepFn (handlers : List RouteHandler) (s : ResolverState) (st : Step) :
    s.currentZoneID ≤ (stepFn handlers s st).currentZoneID := by
  cases st with
  | resolve path =>
    show s.currentZoneID ≤ ((computeOutletSync handlers s path).1).currentZoneID
    rw [currentZoneID_computeOutletSync]
    exact Nat.le_succ _
  | complete p =>
    show s.currentZoneID ≤ ((completeResolution s p).1).currentZoneID
    rw [currentZoneID_completeResolution]

theorem currentZoneID_le_runSteps (handlers : List RouteHandler) (s : ResolverState)
    (steps : List Step) :
    s.currentZoneID ≤ (runSteps handlers s steps).currentZoneID := by
  induction steps generalizing s with
  | nil => exact Nat.le_refl _
  | cons st rest ih =>
    calc s.currentZoneID
        ≤ (stepFn handlers s st).currentZoneID := currentZoneID_le_stepFn handlers s st
      _ ≤ (runSteps handlers (stepFn handlers s st) rest).currentZoneID := ih _

theorem computeOutletSync_pending_zone (handlers : List RouteHandler) (s : ResolverState)
    (path : String) (p : Pending)
    (h : (computeOutletSync handlers s path).2 = some p) :
    p.zoneID = s.currentZoneID + 1 := by
  unfold computeOutletSync at h
  cases hsel : selectRouteHandler handlers path <;> rw [hsel] at h
  · exact absurd h (by simp)
  · simp only [Option.some.injEq] at h
    rw [← h]

theorem find?_lowest_index (p : α → Bool) (l : List α) (a : α) (h : l.find? p = some a) :
    ∃ i : Nat, l[i]? = some a ∧ p a = true
      ∧ ∀ j : Nat, j < i → ∀ g, l[j]? = some g → p g = false := by
  induction l with
  | nil => exact absurd h (by simp)
  | cons x t ih =>
    cases hx : p x
    · rw [List.find?_cons_of_neg _ (by simp [hx])] at h
      obtain ⟨i, h1, h2, h3⟩ := ih h
      refine ⟨i + 1, by simpa using h1, h2, ?_⟩
      intro j hj g hg
      cases j with
      | zero =>
        simp only [List.getElem?_cons_zero, Option.some.injEq] at hg
        rw [← hg]; exact hx
      | succ j' => exact h3 j' (by omega) g (by simpa using hg)
    · rw [List.find?_cons_of_pos _ hx] at h
      obtain rfl := Option.some.inj h
      exact ⟨0, by simp, hx, by intro j hj; exact absurd hj (Nat.not_lt_zero j)⟩

/-! ### Claim theorems -/

/-- C2: route handler selection (detour.ts line 188) is strict
first-match-wins: the selected handler is the head of the sublist of
handlers whose pattern matches the path, any selected handler sits at
the lowest table index whose pattern matches with every earlier entry
failing the test, and two tables with the same sublist of matching
entries (so tables differing only by a reordering of non-matching
entries) select the same handler. -/
theorem C2_first_match_wins (handlers handlers' : List RouteHandler) (path : String) :
    selectRouteHandler handlers path
        = (handlers.filter fun h => h.pathRegExp.test path).head?
    ∧ (∀ h, selectRouteHandler handlers path = some h →
        ∃ i : Nat, handlers[i]? = some h ∧ h.pathRegExp.test path = true
          ∧ ∀ j : Nat, j < i → ∀ g, handlers[j]? = some g → g.pathRegExp.test path = false)
    ∧ ((handlers.filter fun h => h.pathRegExp.test path)
          = (handlers'.filter fun h => h.pathRegExp.test path)
        → selectRouteHandler handlers path = selectRouteHandler handlers' path) := by
  refine ⟨find?_eq_filter_head? _ _, ?_, ?_⟩
  · intro h hsel
    exact find?_lowest_index _ _ _ hsel
  · intro hfilter
    rw [selectRouteHandler, find?_eq_filter_head?, hfilter, ← find?_eq_filter_head?]
    rfl

/-- Witness for C2: with the table holding a non-matching entry before a
matching one, the matching one is selected, and dropping the
non-matching entry does not change the selection. -/
theorem C2_witness :
    selectRouteHandler [sampleHandlerNever, sampleHandlerA] "/a/42" = some sampleHandlerA
    ∧ selectRouteHandler [sampleHandlerNever, sampleHandlerA] "/a/42"
        = selectRouteHandler [sampleHandlerA] "/a/42" := by
  have h := C2_first_match_wins [sampleHandlerNever, sampleHandlerA] [sampleHandlerA] "/a/42"
  exact ⟨by rw [h.1]; rfl, h.2.2 rfl⟩

/-- C4: when no route entry matches the path, computeOutlet (detour.ts
lines 188-190) synchronously sets the outlets state to empty and returns
with nothing in flight; the resulting state is the same for every prior
state with the same zone counter, independent of any session comparison,
and no error is produced. -/
theorem C4_no_match (handlers : List RouteHandler) (s : ResolverState) (path : String)
    (h : selectRouteHandler handlers path = none) :
    (computeOutletSync handlers s path).1.outlets = []
    ∧ (computeOutletSync handlers s path).2 = none
    ∧ (computeOutletSync handlers s path).1
        = { currentZoneID := s.currentZoneID + 1, outlets := [] } := by
  refine ⟨?_, ?_, ?_⟩ <;> simp [computeOutletSync, h]

/-- Witness for C4: a table with a single never-matching handler clears
a previously populated outlets state synchronously. -/
theorem C4_witness :
    (computeOutletSync [sampleHandlerNever] ⟨5, [("default", .elem 9 [])]⟩ "/x").1.outlets = []
    ∧ (computeOutletSync [sampleHandlerNever] ⟨5, [("default", .elem 9 [])]⟩ "/x").2 = none := by
  have h := C4_no_match [sampleHandlerNever] ⟨5, [("default", .elem 9 [])]⟩ "/x" rfl
  exact ⟨h.1, h.2.1⟩

/-- C6: the end option passed to the pattern compiler (detour.ts line
69) is the user supplied boolean when one was given; when unspecified it
is true exactly when the route path is the root path. -/
theorem C6_end_option (path : String) (b : Bool) :
    routeEnd path (some b) = b
    ∧ (routeEnd path none = true ↔ path = "/") := by
  refine ⟨rfl, ?_⟩
  simp [routeEnd]

/-- C8: a single-thunk route resolves to the one-entry map under the key
default (detour.ts line 74): a fulfilled thunk yields exactly that map,
and every fulfilled resolution of a single-thunk route has that shape. -/
theorem C8_single_default (thunk : Thunk') :
    (∀ c, thunk = .ok c → getComponentsResult (.single thunk) = .ok [("default", c)])
    ∧ (∀ comps, getComponentsResult (.single thunk) = .ok comps
        → ∃ c, thunk = .ok c ∧ comps = [("default", c)]) := by
  constructor
  · intro c hc
    rw [hc]
    rfl
  · intro comps h
    cases thunk with
    | error e => exact absurd h (by simp [getComponentsResult, Except.map])
    | ok c =>
      refine ⟨c, rfl, ?_⟩
      simp only [getComponentsResult, Except.map, Except.ok.injEq] at h
      exact h.symm

/-- Witness for C8: a thunk resolving to component 7 yields the map with
the single key default holding 7. -/
theorem C8_witness :
    getComponentsResult (.single (.ok 7)) = .ok [("default", 7)] :=
  (C8_single_default (.ok 7)).1 7 rfl

/-- C9: RouteOutlet.render (detour.ts lines 226-237) passes the full
current outlets map through the outlets prop of the composed component
and passes the default outlet, looked up by key, as its children. -/
theorem C9_render (component : Component) (s : ResolverState) :
    (renderRouteOutlet component s).props_outlets = s.outlets
    ∧ (renderRouteOutlet component s).children = s.outlets.lookup "default"
    ∧ (renderRouteOutlet component s).component = component :=
  ⟨rfl, rfl, rfl⟩

theorem sequenceComponentThunks_cons_error (k : String) (e : JSError)
    (rest : List (String × Thunk')) :
    sequenceComponentThunks ((k, .error e) :: rest) = .error e := rfl

theorem sequenceComponentThunks_cons_ok (k : String) (c : Component)
    (rest : List (String × Thunk')) :
    sequenceComponentThunks ((k, .ok c) :: rest)
      = (sequenceComponentThunks rest).map fun cs => (k, c) :: cs := by
  show Except.bind (sequenceComponentThunks rest) (fun cs => Except.ok ((k, c) :: cs))
      = (sequenceComponentThunks rest).map fun cs => (k, c) :: cs
  cases sequenceComponentThunks rest <;> rfl

theorem sequenceComponentThunks_keys (thunks : List (String × Thunk'))
    (comps : List (String × Component))
    (h : sequenceComponentThunks thunks = .ok comps) :
    comps.map Prod.fst = thunks.map Prod.fst := by
  induction thunks generalizing comps with
  | nil =>
    simp only [sequenceComponentThunks, Except.ok.injEq] at h
    rw [← h]
    rfl
  | cons kt rest ih =>
    obtain ⟨k, t⟩ := kt
    cases t with
    | error e =>
      rw [sequenceComponentThunks_cons_error] at h
      exact absurd h (by simp)
    | ok c =>
      rw [sequenceComponentThunks_cons_ok] at h
      cases hr : sequenceComponentThunks rest with
      | error e =>
        rw [hr] at h
        exact absurd h (by simp [Except.map])
      | ok cs =>
        rw [hr] at h
        simp only [Except.map, Except.ok.injEq] at h
        rw [← h]
        simp [ih cs hr]

theorem sequenceComponentThunks_error_of_mem (thunks : List (String × Thunk'))
    (k : String) (e : JSError) (hmem : (k, Except.error e) ∈ thunks) :
    ∃ e', sequenceComponentThunks thunks = .error e' := by
  induction thunks with
  | nil => cases hmem
  | cons kt rest ih =>
    obtain ⟨k', t⟩ := kt
    cases t with
    | error e' => exact ⟨e', sequenceComponentThunks_cons_error k' e' rest⟩
    | ok c =>
      have hm : (k, Except.error e) ∈ rest := by
        rcases List.mem_cons.1 hmem with heq | hm
        · exact absurd heq (by simp)
        · exact hm
      obtain ⟨e', he⟩ := ih hm
      refine ⟨e', ?_⟩
      rw [sequenceComponentThunks_cons_ok, he]
      rfl

theorem sequenceComponentThunks_ok_iff (thunks : List (String × Thunk')) :
    (∃ comps, sequenceComponentThunks thunks = .ok comps)
      ↔ ∀ kt ∈ thunks, ∃ c, kt.2 = .ok c := by
  induction thunks with
  | nil => exact ⟨fun _ => by simp, fun _ => ⟨[], rfl⟩⟩
  | cons kt rest ih =>
    obtain ⟨k, t⟩ := kt
    cases t with
    | error e =>
      rw [sequenceComponentThunks_cons_error]
      constructor
      · rintro ⟨comps, h⟩
        exact absurd h (by simp)
      · intro hall
        obtain ⟨c, hc⟩ := hall (k, .error e) (List.mem_cons_self _ _)
        exact absurd hc (by simp)
    | ok c =>
      constructor
      · rintro ⟨comps, h⟩
        intro kt' hmem
        rcases List.mem_cons.1 hmem with heq | hm
        · rw [heq]
          exact ⟨c, rfl⟩
        · rw [sequenceComponentThunks_cons_ok] at h
          cases hr : sequenceComponentThunks rest with
          | error e' =>
            rw [hr] at h
            exact absurd h (by simp [Except.map])
          | ok cs => exact (ih.1 ⟨cs, hr⟩) kt' hm
      · intro hall
        have hrest : ∀ kt ∈ rest, ∃ c, kt.2 = .ok c :=
          fun kt hm => hall kt (List.mem_cons_of_mem _ hm)
        obtain ⟨cs, hcs⟩ := ih.2 hrest
        refine ⟨(k, c) :: cs, ?_⟩
        rw [sequenceComponentThunks_cons_ok, hcs]
        rfl

theorem completeResolution_error_current (s : ResolverState) (p : Pending) (e : JSError)
    (herr : p.handler.getComponents = .error e) (hz : p.zoneID = s.currentZoneID) :
    ((completeResolution s p).1).outlets = [] ∧ (completeResolution s p).2 = [e.stack] := by
  unfold completeResolution
  rw [herr]
  unfold completeFailure
  simp [hz]

theorem completeResolution_error_stale (s : ResolverState) (p : Pending) (e : JSError)
    (herr : p.handler.getComponents = .error e) (hz : p.zoneID ≠ s.currentZoneID) :
    (completeResolution s p).1 = s ∧ (completeResolution s p).2 = [e.stack] := by
  unfold completeResolution
  rw [herr]
  unfold completeFailure
  simp [hz]

/-- C3: a multi-outlet route resolves if and only if the thunk of every key
resolves (fan-out, join-all over Promise.all, detour.ts lines 80-88),
and a fulfilled resolution preserves all keys in order; when the thunk of some
key rejects, a still-current completion of the route publishes the
empty outlets map, never a partial one (lines 217-223). -/
theorem C3_fanout_atomicity (thunks : List (String × Thunk')) :
    ((∃ comps, getComponentsResult (.map thunks) = .ok comps)
        ↔ ∀ kt ∈ thunks, ∃ c, kt.2 = .ok c)
    ∧ (∀ comps, getComponentsResult (.map thunks) = .ok comps
        → comps.map Prod.fst = thunks.map Prod.fst)
    ∧ (∀ (s : ResolverState) (zid : Nat) (rx : PathRegExp) (path k : String) (e : JSError),
        (k, Except.error e) ∈ thunks
        → zid = s.currentZoneID
        → ((completeResolution s ⟨zid, ⟨rx, getComponentsResult (.map thunks)⟩, path⟩).1).outlets
            = []) := by
  refine ⟨sequenceComponentThunks_ok_iff thunks, ?_, ?_⟩
  · intro comps h
    exact sequenceComponentThunks_keys thunks comps h
  · intro s zid rx path k e hmem hz
    obtain ⟨e', he⟩ := sequenceComponentThunks_error_of_mem thunks k e hmem
    exact (completeResolution_error_current s ⟨zid, ⟨rx, getComponentsResult (.map thunks)⟩, path⟩
      e' he hz).1

/-- Witness for C3: a two-key route whose second thunk rejects clears a
populated outlets state on a still-current completion. -/
theorem C3_witness :
    ((completeResolution ⟨3, [("default", .elem 9 [])]⟩
        ⟨3, ⟨rxNever, getComponentsResult
              (.map [("one", .ok 1), ("two", .error ⟨"boom"⟩)])⟩, "/ab"⟩).1).outlets = [] :=
  (C3_fanout_atomicity [("one", .ok 1), ("two", .error ⟨"boom"⟩)]).2.2
    ⟨3, [("default", .elem 9 [])]⟩ 3 rxNever "/ab" "two" ⟨"boom"⟩
    (List.mem_cons_of_mem _ (List.mem_cons_self _ _)) rfl

/-- C7: when a matched route's loader promise rejects, the error stack
is reported to the diagnostic sink; a still-current rejecting session
clears the outlets map to empty, a superseded one leaves the state
untouched; in both cases completion returns a state, never an
exception. -/
theorem C7_load_error (s : ResolverState) (p : Pending) (e : JSError)
    (herr : p.handler.getComponents = .error e) :
    (completeResolution s p).2 = [e.stack]
    ∧ (p.zoneID = s.currentZoneID → ((completeResolution s p).1).outlets = [])
    ∧ (p.zoneID ≠ s.currentZoneID → (completeResolution s p).1 = s) := by
  refine ⟨?_, ?_, ?_⟩
  · by_cases hz : p.zoneID = s.currentZoneID
    · exact (completeResolution_error_current s p e herr hz).2
    · exact (completeResolution_error_stale s p e herr hz).2
  · intro hz
    exact (completeResolution_error_current s p e herr hz).1
  · intro hz
    exact (completeResolution_error_stale s p e herr hz).1

/-- Witness for C7: a current rejecting resolution reports its stack and
clears the populated outlets map. -/
theorem C7_witness :
    (completeResolution ⟨2, [("default", .elem 9 [])]⟩ ⟨2, sampleHandlerFail, "/a/42"⟩).2
        = ["boom at loader"]
    ∧ ((completeResolution ⟨2, [("default", .elem 9 [])]⟩
          ⟨2, sampleHandlerFail, "/a/42"⟩).1).outlets = [] := by
  have h := C7_load_error ⟨2, [("default", .elem 9 [])]⟩ ⟨2, sampleHandlerFail, "/a/42"⟩
      ⟨"boom at loader"⟩ rfl
  exact ⟨h.1, h.2.1 rfl⟩

/-- C10: on loader rejection the diagnostic report happens regardless of
session currency, so even the failure of a superseded resolution is reported,
while a superseded rejection leaves the outlets map untouched: only the
clearing is guarded by the session check (detour.ts lines 217-223). -/
theorem C10_report_unconditional (s : ResolverState) (p : Pending) (e : JSError)
    (herr : p.handler.getComponents = .error e) :
    (completeResolution s p).2 = [e.stack]
    ∧ (p.zoneID ≠ s.currentZoneID → ((completeResolution s p).1).outlets = s.outlets) := by
  constructor
  · by_cases hz : p.zoneID = s.currentZoneID
    · exact (completeResolution_error_current s p e herr hz).2
    · exact (completeResolution_error_stale s p e herr hz).2
  · intro hz
    rw [(completeResolution_error_stale s p e herr hz).1]

/-- Witness for C10: a stale rejecting resolution still reports its
stack and does not touch the outlets map. -/
theorem C10_witness :
    (completeResolution ⟨5, [("default", .elem 9 [])]⟩ ⟨2, sampleHandlerFail, "/a/42"⟩).2
        = ["boom at loader"]
    ∧ ((completeResolution ⟨5, [("default", .elem 9 [])]⟩
          ⟨2, sampleHandlerFail, "/a/42"⟩).1).outlets = [("default", .elem 9 [])] := by
  have h := C10_report_unconditional ⟨5, [("default", .elem 9 [])]⟩
      ⟨2, sampleHandlerFail, "/a/42"⟩ ⟨"boom at loader"⟩ rfl
  exact ⟨h.1, h.2 (by decide)⟩

/-- C5: on a still-current successful completion, the pattern is re-run
against the path captured at call time: the matched string followed by
the computed path rest reassembles the original path exactly; every
outlet is the loaded component rendered with the params built by zipping
the key names of the pattern with the capture values, wrapped in a
PathProvider carrying the unmodified path rest; and the zipped params
map the i-th key name to the i-th capture value. -/
theorem C5_extraction (s : ResolverState) (p : Pending) (comps : List (String × Component))
    (m : String) (caps : List String)
    (hcur : p.zoneID = s.currentZoneID)
    (hexec : p.handler.pathRegExp.exec p.path = some (m, caps)) :
    m ++ p.path.drop m.length = p.path
    ∧ (completeSuccess s p comps).outlets
        = comps.map (fun kc =>
            (kc.1, Element.pathProvider (p.path.drop m.length)
                (Element.elem kc.2 (p.handler.pathRegExp.keys.zip caps))))
    ∧ (∀ (i : Nat) (name v : String),
        p.handler.pathRegExp.keys[i]? = some name → caps[i]? = some v
          → (p.handler.pathRegExp.keys.zip caps)[i]? = some (name, v)) := by
  obtain ⟨rest, hrest⟩ := p.handler.pathRegExp.exec_anchored p.path m caps hexec
  refine ⟨?_, ?_, ?_⟩
  · rw [hrest, string_drop_left]
  · unfold completeSuccess
    simp [hcur, hexec]
  · intro i name v h1 h2
    rw [List.getElem?_zip_eq_some]
    exact ⟨h1, h2⟩

/-- Witness for C5: the sample pattern matching /a/42 with prefix /a and
capture 42 produces the outlet wrapped with the remaining path and the
param id mapped to 42. -/
theorem C5_witness :
    "/a" ++ ("/a/42").drop ("/a").length = "/a/42"
    ∧ (completeSuccess ⟨1, []⟩ ⟨1, sampleHandlerA, "/a/42"⟩ [("default", 7)]).outlets
        = [("default", Element.pathProvider (("/a/42").drop ("/a").length)
            (Element.elem 7 [("id", "42")]))] := by
  have h := C5_extraction ⟨1, []⟩ ⟨1, sampleHandlerA, "/a/42"⟩ [("default", 7)] "/a" ["42"]
      rfl (by decide)
  refine ⟨h.1, ?_⟩
  rw [h.2.1]
  rfl

/-- C1: each computeOutlet call on a resolver allocates the next zone
id, strictly greater than the previous current one, and that id becomes
current (detour.ts line 183); a successful completion whose zone id
differs from the current one changes nothing (line 195); consequently,
after a second computeOutlet call and any further sequence of resolver
events, the late completion of the resolution of the first call leaves the
state, outlets included, exactly as it was. -/
theorem C1_session_currency (handlers : List RouteHandler) (s0 : ResolverState)
    (p1 p2 : String) (steps : List Step) (pend : Pending)
    (h1 : (computeOutletSync handlers s0 p1).2 = some pend) :
    ((computeOutletSync handlers s0 p1).1).currentZoneID = s0.currentZoneID + 1
    ∧ pend.zoneID = ((computeOutletSync handlers s0 p1).1).currentZoneID
    ∧ (∀ (s : ResolverState) (comps : List (String × Component)),
        pend.zoneID ≠ s.currentZoneID → completeSuccess s pend comps = s)
    ∧ (completeResolution
          (runSteps handlers
            ((computeOutletSync handlers ((computeOutletSync handlers s0 p1).1) p2).1) steps)
          pend).1
        = runSteps handlers
            ((computeOutletSync handlers ((computeOutletSync handlers s0 p1).1) p2).1) steps := by
  have hz1 : pend.zoneID = s0.currentZoneID + 1 :=
    computeOutletSync_pending_zone handlers s0 p1 pend h1
  refine ⟨currentZoneID_computeOutletSync handlers s0 p1, ?_, ?_, ?_⟩
  · rw [hz1, currentZoneID_computeOutletSync]
  · intro s comps hz
    unfold completeSuccess
    simp [hz]
  · apply completeResolution_stale
    have h2 : ((computeOutletSync handlers ((computeOutletSync handlers s0 p1).1) p2).1).currentZoneID
        = s0.currentZoneID + 1 + 1 := by
      rw [currentZoneID_computeOutletSync, currentZoneID_computeOutletSync]
    have h3 := currentZoneID_le_runSteps handlers
        ((computeOutletSync handlers ((computeOutletSync handlers s0 p1).1) p2).1) steps
    rw [h2] at h3
    omega

/-- Witness for C1: a first resolution of /a/42 allocates zone 1,
resolving /x afterwards moves the current zone to 2, and the late
completion of the zone 1 resolution leaves the state unchanged. -/
theorem C1_witness :
    ((computeOutletSync [sampleHandlerA] ⟨0, []⟩ "/a/42").1).currentZoneID = 1
    ∧ completeSuccess ⟨9, []⟩ ⟨1, sampleHandlerA, "/a/42"⟩ [("default", 7)] = ⟨9, []⟩
    ∧ (completeResolution
          (runSteps [sampleHandlerA]
            ((computeOutletSync [sampleHandlerA]
              ((computeOutletSync [sampleHandlerA] ⟨0, []⟩ "/a/42").1) "/x").1) [])
          ⟨1, sampleHandlerA, "/a/42"⟩).1
        = runSteps [sampleHandlerA]
            ((computeOutletSync [sampleHandlerA]
              ((computeOutletSync [sampleHandlerA] ⟨0, []⟩ "/a/42").1) "/x").1) [] := by
  have h := C1_session_currency [sampleHandlerA] ⟨0, []⟩ "/a/42" "/x" []
      ⟨1, sampleHandlerA, "/a/42"⟩ rfl
  exact ⟨h.1, h.2.2.1 ⟨9, []⟩ [("default", 7)] (by decide), h.2.2.2⟩
